import Mathlib

/-!
Verification of the concurrent price-store program (src/main.cpp).

The program keeps a `tbb::concurrent_hash_map<std::string, StockData>`
mapping stock symbols to atomically updatable prices.  A single batch
updater regenerates a price for each tracked symbol every cycle and
stores it if the symbol is present; querier threads look prices up and
print them.  We embed the sequential data content of these operations:
the table becomes an association list with unique keys, prices become
rationals, and the random draw of `uniform_real_distribution` becomes an
explicit parameter `r` in `[0, 1]`.
-/

/-- A price table: association list from symbol to current price.
Embeds the data content of `tbb::concurrent_hash_map<std::string, StockData>`
(`stockPrices` in main.cpp). -/
abbrev PriceTable := List (String × ℚ)

/-- Key set of the table, as the list of stored symbols. -/
def keys (t : PriceTable) : List String := t.map Prod.fst

/-- Read path of `queryStockPrice`: `stockPrices.find(accessor, stock)` then
`accessor->second.price.load(...)` (main.cpp lines 76-81).  Returns the
stored price, or `none` when the symbol is absent. -/
def lookup (t : PriceTable) (s : String) : Option ℚ :=
  (t.find? (fun p => p.1 == s)).map Prod.snd

/-- The apply step of `simulateBatchUpdates` (main.cpp lines 56-59):
`stockPrices.find(accessor, update.first)` and, only on success,
`accessor->second.price.store(update.second, ...)`.  The boolean is the
result of `find`: `false` means the key was not found and nothing was
written. -/
def update (t : PriceTable) (s : String) (v : ℚ) : PriceTable × Bool :=
  match t.find? (fun p => p.1 == s) with
  | some _ => (t.map (fun p => if p.1 == s then (p.1, v) else p), true)
  | none => (t, false)

/-- Seeding step of `main` (lines 98-112): `stockPrices.insert(accessor, s)`
followed by `accessor->second = StockData(v)`.  `insert` creates the entry
if absent; the assignment then stores `v` into the (new or existing)
entry's atomic price. -/
def insertSeed (t : PriceTable) (s : String) (v : ℚ) : PriceTable :=
  match t.find? (fun p => p.1 == s) with
  | some _ => t.map (fun p => if p.1 == s then (p.1, v) else p)
  | none => t ++ [(s, v)]

/-- The startup initialization of `main` (lines 97-113). -/
def initTable : PriceTable :=
  insertSeed (insertSeed (insertSeed (insertSeed (insertSeed []
    "AAPL" 150) "GOOGL" 2800) "AMZN" 3400) "MSFT" 299) "TSLA" 720

/-- The tracked symbol list of `simulateBatchUpdates` (line 41). -/
def trackedStocks : List String := ["AAPL", "GOOGL", "AMZN", "MSFT", "TSLA"]

/-- The price source `generateRandomPrice(base, range)` (lines 33-37) draws from
`uniform_real_distribution<double>(base - range, base + range)`.  The
random draw is made explicit: `r` ranges over `[0, 1]` and the returned
value is `base - range + r * (2 * range)`. -/
def generateRandomPrice (base range r : ℚ) : ℚ :=
  base - range + r * (2 * range)

/-- The Enqueuing phase (lines 48-51): one `(stock, newPrice)` pair is
pushed per tracked symbol, in list order.  `f` gives the price drawn for
each symbol this cycle. -/
def genBatch (f : String → ℚ) : List (String × ℚ) :=
  trackedStocks.map (fun s => (s, f s))

/-- The Applying phase (lines 54-60): records are popped in queue (push)
order and each is applied via find-then-store; a failed find is skipped. -/
def applyBatch (t : PriceTable) (batch : List (String × ℚ)) : PriceTable :=
  batch.foldl (fun acc u => (update acc u.1 u.2).1) t

/-- One full Generating/Enqueuing/Applying cycle of `simulateBatchUpdates`
with price draws `f`. -/
def batchCycle (t : PriceTable) (f : String → ℚ) : PriceTable :=
  applyBatch t (genBatch f)

/-- Several consecutive batch cycles, one price-draw function per cycle. -/
def runCycles (t : PriceTable) (fs : List (String → ℚ)) : PriceTable :=
  fs.foldl batchCycle t

/-- Console observations the program emits (latency values, which are
wall-clock readings, are abstracted to unit-less markers). -/
inductive Obs where
  | priceReport (s : String) (v : ℚ)
  | stockNotFound (s : String)
  | queryLatency (s : String)
  | batchLatency
  deriving DecidableEq

/-- One apply-loop iteration of `simulateBatchUpdates` together with what
it prints: the loop body (lines 55-60) prints nothing, whether the find
succeeds or fails. -/
def applyUpdateObs (t : PriceTable) (u : String × ℚ) : PriceTable × List Obs :=
  ((update t u.1 u.2).1, [])

/-- The Applying phase with its emitted output. -/
def applyBatchObs (t : PriceTable) (batch : List (String × ℚ)) :
    PriceTable × List Obs :=
  batch.foldl
    (fun acc u =>
      let step := applyUpdateObs acc.1 u
      (step.1, acc.2 ++ step.2))
    (t, [])

/-- One iteration of `queryStockPrice`'s loop (lines 76-85): prints the
price, or `Stock not found`, then the query latency. -/
def queryIterObs (t : PriceTable) (s : String) : List Obs :=
  match lookup t s with
  | some v => [Obs.priceReport s v, Obs.queryLatency s]
  | none => [Obs.stockNotFound s, Obs.queryLatency s]

/-- Iterating the querier loop `n` times; the querier never modifies the
table, so the same table is read each time. -/
def queryLoopObs (t : PriceTable) (s : String) : ℕ → List Obs
  | 0 => []
  | n + 1 => queryIterObs t s ++ queryLoopObs t s n

/-- Accessor lifetime of `queryStockPrice` per loop iteration.  The
`const_accessor` is declared OUTSIDE the `while` loop (main.cpp line 72).
A successful `tbb` `find` (line 76) acquires the entry's reader lock on
that accessor; the lock is released only by `release()`, destruction, or
the next acquisition — none of which happens before the iteration ends,
so a found entry is still reader-locked when `sleep_for(seconds(1))`
(line 87) begins.  The result is the symbol whose entry the querier still
holds locked at the end of one iteration. -/
def queryIterHeldLock (t : PriceTable) (s : String) : Option String :=
  match lookup t s with
  | some _ => some s
  | none => none

theorem find?_key_eq_none {t : PriceTable} {s : String} (h : s ∉ keys t) :
    t.find? (fun p => p.1 == s) = none := by
  rw [List.find?_eq_none]
  intro p hp hps
  exact h (List.mem_map.mpr ⟨p, hp, by simpa using hps⟩)

theorem find?_key_isSome {t : PriceTable} {s : String} (h : s ∈ keys t) :
    (t.find? (fun p => p.1 == s)).isSome := by
  rw [List.find?_isSome]
  obtain ⟨p, hp, hps⟩ := List.mem_map.mp h
  exact ⟨p, hp, by simpa using hps⟩

theorem update_absent {t : PriceTable} {s : String} (v : ℚ) (h : s ∉ keys t) :
    update t s v = (t, false) := by
  unfold update
  rw [find?_key_eq_none h]

theorem lookup_eq_none {t : PriceTable} {s : String} (h : s ∉ keys t) :
    lookup t s = none := by
  unfold lookup
  rw [find?_key_eq_none h]
  rfl

theorem find?_map_set (t : PriceTable) (a s : String) (v : ℚ) :
    (t.map (fun p => if p.1 == a then (p.1, v) else p)).find? (fun p => p.1 == s)
      = (t.find? (fun p => p.1 == s)).map
          (fun p => if p.1 == a then (p.1, v) else p) := by
  have hfun : ((fun p : String × ℚ => p.1 == s) ∘
      fun p => if p.1 == a then (p.1, v) else p) = fun p => p.1 == s := by
    funext p
    by_cases h : p.1 = a <;> simp [h, Function.comp]
  rw [List.find?_map, hfun]

theorem keys_update (t : PriceTable) (a : String) (v : ℚ) :
    keys (update t a v).1 = keys t := by
  unfold update
  split
  · simp only [keys, List.map_map]
    congr 1
    funext p
    by_cases h : p.1 = a <;> simp [h, Function.comp]
  · rfl

theorem mem_keys_update {t : PriceTable} {s : String} (a : String) (v : ℚ)
    (h : s ∈ keys t) : s ∈ keys (update t a v).1 := by
  rw [keys_update]
  exact h

theorem lookup_update_self {t : PriceTable} (s : String) (v : ℚ)
    (h : s ∈ keys t) : lookup (update t s v).1 s = some v := by
  obtain ⟨p, hp⟩ := Option.isSome_iff_exists.mp (find?_key_isSome h)
  have hps : p.1 = s := by simpa using List.find?_some hp
  unfold update
  rw [hp]
  simp only [lookup, find?_map_set, hp, Option.map_some]
  simp [hps]

theorem lookup_update_ne {t : PriceTable} {v : ℚ} (a b : String) (h : a ≠ b) :
    lookup (update t a v).1 b = lookup t b := by
  unfold update
  split
  · simp only [lookup, find?_map_set]
    cases hq : t.find? (fun p => p.1 == b) with
    | none => rfl
    | some q =>
      have hqb : q.1 = b := by simpa using List.find?_some hq
      simp [hqb, Ne.symm h]
  · rfl

theorem keys_applyBatch (batch : List (String × ℚ)) :
    ∀ t : PriceTable, keys (applyBatch t batch) = keys t := by
  induction batch with
  | nil => intro t; rfl
  | cons u rest ih =>
    intro t
    have hstep : applyBatch t (u :: rest) =
        applyBatch (update t u.1 u.2).1 rest := rfl
    rw [hstep, ih, keys_update]

theorem keys_batchCycle (t : PriceTable) (f : String → ℚ) :
    keys (batchCycle t f) = keys t :=
  keys_applyBatch (genBatch f) t

theorem lookup_batchCycle {t : PriceTable} (f : String → ℚ) (s : String)
    (hs : s ∈ trackedStocks) (h : s ∈ keys t) :
    lookup (batchCycle t f) s = some (f s) := by
  simp only [trackedStocks, List.mem_cons, List.not_mem_nil, or_false] at hs
  simp only [batchCycle, genBatch, trackedStocks, List.map_cons, List.map_nil,
    applyBatch, List.foldl_cons, List.foldl_nil]
  rcases hs with rfl | rfl | rfl | rfl | rfl
  · rw [lookup_update_ne "TSLA" "AAPL" (by decide),
      lookup_update_ne "MSFT" "AAPL" (by decide),
      lookup_update_ne "AMZN" "AAPL" (by decide),
      lookup_update_ne "GOOGL" "AAPL" (by decide)]
    exact lookup_update_self "AAPL" (f "AAPL") h
  · rw [lookup_update_ne "TSLA" "GOOGL" (by decide),
      lookup_update_ne "MSFT" "GOOGL" (by decide),
      lookup_update_ne "AMZN" "GOOGL" (by decide)]
    exact lookup_update_self "GOOGL" (f "GOOGL") (mem_keys_update _ _ h)
  · rw [lookup_update_ne "TSLA" "AMZN" (by decide),
      lookup_update_ne "MSFT" "AMZN" (by decide)]
    exact lookup_update_self "AMZN" (f "AMZN")
      (mem_keys_update _ _ (mem_keys_update _ _ h))
  · rw [lookup_update_ne "TSLA" "MSFT" (by decide)]
    exact lookup_update_self "MSFT" (f "MSFT")
      (mem_keys_update _ _ (mem_keys_update _ _ (mem_keys_update _ _ h)))
  · exact lookup_update_self "TSLA" (f "TSLA")
      (mem_keys_update _ _ (mem_keys_update _ _ (mem_keys_update _ _
        (mem_keys_update _ _ h))))

theorem runCycles_lookup (fs : List (String → ℚ)) :
    ∀ t : PriceTable, fs ≠ [] → (∀ s ∈ trackedStocks, s ∈ keys t) →
    ∀ s ∈ trackedStocks, ∃ g ∈ fs, lookup (runCycles t fs) s = some (g s) := by
  induction fs with
  | nil => intro t hne; exact absurd rfl hne
  | cons f rest ih =>
    intro t _ hk s hs
    cases rest with
    | nil =>
      refine ⟨f, List.mem_singleton_self f, ?_⟩
      have hone : runCycles t [f] = batchCycle t f := by
        simp only [runCycles, List.foldl_cons, List.foldl_nil]
      rw [hone]
      exact lookup_batchCycle f s hs (hk s hs)
    | cons f2 rest2 =>
      have hk2 : ∀ u ∈ trackedStocks, u ∈ keys (batchCycle t f) := by
        intro u hu
        rw [keys_batchCycle]
        exact hk u hu
      obtain ⟨g, hg, hl⟩ := ih (batchCycle t f) (by simp) hk2 s hs
      refine ⟨g, List.mem_cons_of_mem f hg, ?_⟩
      have hstep : runCycles t (f :: f2 :: rest2) =
          runCycles (batchCycle t f) (f2 :: rest2) := by
        simp only [runCycles, List.foldl_cons]
      rw [hstep]
      exact hl

theorem generateRandomPrice_bounds (base range r : ℚ) (hrange : 0 ≤ range)
    (h0 : 0 ≤ r) (h1 : r ≤ 1) :
    base - range ≤ generateRandomPrice base range r ∧
      generateRandomPrice base range r ≤ base + range := by
  unfold generateRandomPrice
  constructor <;> nlinarith

/-- Claim C1: for every table state and every symbol `s` absent from the
table's key set, `update s v` returns failure (the not-found result) and
leaves the table completely unchanged: no entry is inserted, the key set
and its size are unchanged, and every existing entry's price is
unchanged. -/
theorem c1_update_absent_is_noop (t : PriceTable) (s : String) (v : ℚ)
    (h : s ∉ keys t) :
    (update t s v).2 = false ∧ (update t s v).1 = t ∧
    keys (update t s v).1 = keys t ∧
    (keys (update t s v).1).length = (keys t).length ∧
    ∀ b : String, lookup (update t s v).1 b = lookup t b := by
  have hupd := update_absent v h
  rw [hupd]
  exact ⟨rfl, rfl, rfl, rfl, fun b => rfl⟩

/-- Witness for C1 at the seeded table and the absent symbol `NFLX`. -/
theorem c1_witness :
    "NFLX" ∉ keys initTable ∧
    ((update initTable "NFLX" 700).2 = false ∧
      (update initTable "NFLX" 700).1 = initTable ∧
      keys (update initTable "NFLX" 700).1 = keys initTable ∧
      (keys (update initTable "NFLX" 700).1).length = (keys initTable).length ∧
      ∀ b : String, lookup (update initTable "NFLX" 700).1 b = lookup initTable b) :=
  ⟨by decide, c1_update_absent_is_noop initTable "NFLX" 700 (by decide)⟩

/-- Claim C2: starting from a table seeded with AAPL at 150 and GOOGL at
2800, after `update "AAPL" 151.25` the lookups give 151.25 for AAPL and
2800 unchanged for GOOGL; a subsequent `update "TSLA" 700` reports
not-found and TSLA still looks up as absent. -/
theorem c2_concrete_scenario :
    lookup (update (insertSeed (insertSeed [] "AAPL" 150) "GOOGL" 2800)
        "AAPL" 151.25).1 "AAPL" = some 151.25 ∧
    lookup (update (insertSeed (insertSeed [] "AAPL" 150) "GOOGL" 2800)
        "AAPL" 151.25).1 "GOOGL" = some 2800 ∧
    (update (update (insertSeed (insertSeed [] "AAPL" 150) "GOOGL" 2800)
        "AAPL" 151.25).1 "TSLA" 700).2 = false ∧
    lookup (update (update (insertSeed (insertSeed [] "AAPL" 150) "GOOGL" 2800)
        "AAPL" 151.25).1 "TSLA" 700).1 "TSLA" = none := by
  simp [lookup, update, insertSeed, List.find?]

/-- Claim C3: immediately after initializing with only AAPL at 150 and
before any update, AAPL looks up as exactly 150 and a symbol not in the
seed mapping (MSFT) looks up as absent. -/
theorem c3_initialization_determinism :
    lookup (insertSeed [] "AAPL" 150) "AAPL" = some 150 ∧
    lookup (insertSeed [] "AAPL" 150) "MSFT" = none := by
  decide

/-- Claim C4: for every table state, every two distinct symbols `a` and
`b` present in the table, and every value `v`: after `update a v`, the
value observed for `b` is exactly the value observed before the update. -/
theorem c4_update_frame (t : PriceTable) (a b : String) (v : ℚ)
    (ha : a ∈ keys t) (hb : b ∈ keys t) (hab : a ≠ b) :
    lookup (update t a v).1 b = lookup t b :=
  lookup_update_ne a b hab

/-- Witness for C4 at the seeded table with AAPL updated and GOOGL observed. -/
theorem c4_witness :
    ("AAPL" ∈ keys initTable ∧ "GOOGL" ∈ keys initTable ∧ "AAPL" ≠ "GOOGL") ∧
    lookup (update initTable "AAPL" 123).1 "GOOGL" = lookup initTable "GOOGL" :=
  ⟨⟨by decide, by decide, by decide⟩,
    c4_update_frame initTable "AAPL" "GOOGL" 123 (by decide) (by decide) (by decide)⟩

/-- Counterexample to claim C5 as stated: the Applying phase of
`simulateBatchUpdates` hits a not-found update target (`NVDA` is absent
from the seeded table) yet emits no observation at all — the loop body
prints nothing on the not-found branch, so this occurrence of the
not-found condition is NOT reported. -/
theorem c5_counterexample :
    "NVDA" ∉ keys initTable ∧
    (applyBatchObs initTable [("NVDA", 700)]).2 = [] := by
  decide

/-- Claim C5 as amended: a not-found QUERY target is reported (the
`Stock not found` line) and the querier loop continues; a not-found
UPDATE target is silently skipped — the apply loop emits nothing for it,
leaves the table unchanged, and continues with the remaining records.
Neither case aborts: both loops proceed normally. -/
theorem c5_amended_keynotfound_handling (t : PriceTable) (s : String)
    (h : s ∉ keys t) (v : ℚ) (rest : List (String × ℚ)) (n : ℕ) :
    queryIterObs t s = [Obs.stockNotFound s, Obs.queryLatency s] ∧
    queryLoopObs t s (n + 1) = queryIterObs t s ++ queryLoopObs t s n ∧
    applyBatchObs t ((s, v) :: rest) = applyBatchObs t rest := by
  refine ⟨?_, rfl, ?_⟩
  · unfold queryIterObs
    rw [lookup_eq_none h]
  · unfold applyBatchObs
    simp only [List.foldl_cons, applyUpdateObs, update_absent v h,
      List.nil_append, List.append_nil]

/-- Witness for the amended C5 at the seeded table and absent symbol `NVDA`. -/
theorem c5_witness :
    "NVDA" ∉ keys initTable ∧
    (queryIterObs initTable "NVDA" =
        [Obs.stockNotFound "NVDA", Obs.queryLatency "NVDA"] ∧
      queryLoopObs initTable "NVDA" (0 + 1) =
        queryIterObs initTable "NVDA" ++ queryLoopObs initTable "NVDA" 0 ∧
      applyBatchObs initTable [("NVDA", 700), ("AAPL", 90)] =
        applyBatchObs initTable [("AAPL", 90)]) :=
  ⟨by decide,
    c5_amended_keynotfound_handling initTable "NVDA" (by decide) 700
      [("AAPL", 90)] 0⟩

/-- Claim C6: in every BatchUpdater cycle the ephemeral update queue
contains exactly one `(symbol, price)` record per tracked symbol —
its keys are exactly the tracked-symbol list, and each symbol occurs
once among them (and a symbol outside the list occurs zero times) — so
the Applying phase updates each tracked symbol at most once per cycle. -/
theorem c6_one_record_per_symbol (f : String → ℚ) (s : String) :
    (genBatch f).map Prod.fst = trackedStocks ∧
    ((genBatch f).map Prod.fst).count s =
      if s ∈ trackedStocks then 1 else 0 := by
  have hmap : (genBatch f).map Prod.fst = trackedStocks := by
    unfold genBatch
    rw [List.map_map]
    have hid : (Prod.fst ∘ fun u : String => (u, f u)) = id := by
      funext u
      rfl
    rw [hid, List.map_id]
  refine ⟨hmap, ?_⟩
  rw [hmap]
  by_cases h : s ∈ trackedStocks
  · rw [if_pos h]
    simp only [trackedStocks, List.mem_cons, List.not_mem_nil, or_false] at h
    rcases h with rfl | rfl | rfl | rfl | rfl <;> decide
  · rw [if_neg h, List.count_eq_zero]
    exact h

/-- Claim C7: after startup initialization and before any update, the
table's key set is exactly AAPL, GOOGL, AMZN, MSFT, TSLA with stored
prices 150, 2800, 3400, 299 and 720 respectively. -/
theorem c7_initial_table_contents :
    keys initTable = ["AAPL", "GOOGL", "AMZN", "MSFT", "TSLA"] ∧
    lookup initTable "AAPL" = some 150 ∧
    lookup initTable "GOOGL" = some 2800 ∧
    lookup initTable "AMZN" = some 3400 ∧
    lookup initTable "MSFT" = some 299 ∧
    lookup initTable "TSLA" = some 720 := by
  decide

/-- Claim C8: the price source `generateRandomPrice base range` returns a
value between `base - range` and `base + range` (for a nonnegative range
and a unit-interval draw `r`); with the reference parameters base 100 and
range 50 every generated price lies in `[50, 150]`. -/
theorem c8_generate_in_range (base range r : ℚ) (hrange : 0 ≤ range)
    (h0 : 0 ≤ r) (h1 : r ≤ 1) :
    (base - range ≤ generateRandomPrice base range r ∧
      generateRandomPrice base range r ≤ base + range) ∧
    (50 ≤ generateRandomPrice 100 50 r ∧
      generateRandomPrice 100 50 r ≤ 150) := by
  refine ⟨generateRandomPrice_bounds base range r hrange h0 h1, ?_, ?_⟩
  · have h := generateRandomPrice_bounds 100 50 r (by norm_num) h0 h1
    linarith [h.1]
  · have h := generateRandomPrice_bounds 100 50 r (by norm_num) h0 h1
    linarith [h.2]

/-- Witness for C8 at base 100, range 50 and draw one half. -/
theorem c8_witness :
    ((0 : ℚ) ≤ 50 ∧ (0 : ℚ) ≤ 1/2 ∧ (1 : ℚ)/2 ≤ 1) ∧
    (((100 : ℚ) - 50 ≤ generateRandomPrice 100 50 (1/2) ∧
        generateRandomPrice 100 50 (1/2) ≤ 100 + 50) ∧
      (50 ≤ generateRandomPrice 100 50 (1/2) ∧
        generateRandomPrice 100 50 (1/2) ≤ 150)) :=
  ⟨⟨by norm_num, by norm_num, by norm_num⟩,
    c8_generate_in_range 100 50 (1/2) (by norm_num) (by norm_num) (by norm_num)⟩

/-- Evaluation backing the C9 code bug: after one querier iteration on the
seeded table with symbol AAPL present, the querier still holds the reader
lock on AAPL's entry (the `const_accessor` declared outside the loop is
never released before the one-second sleep), so a concurrent batch update
to AAPL must wait for that lock — the querier can delay the BatchUpdater. -/
theorem c9_querier_holds_entry_lock :
    queryIterHeldLock initTable "AAPL" = some "AAPL" := by
  decide

/-- Claim C10: once at least one Applying phase has completed — starting
from the seeded table and running any nonempty sequence of batch cycles,
each cycle drawing every symbol's price as `generateRandomPrice 100 50`
at some unit-interval draw — every tracked symbol's stored price lies in
`[50, 150]`; in particular the seed prices GOOGL 2800 and AMZN 3400 do
not survive. -/
theorem c10_prices_confined (rs : List (String → ℚ)) (hne : rs ≠ [])
    (hr : ∀ g ∈ rs, ∀ s : String, 0 ≤ g s ∧ g s ≤ 1) :
    (∀ s ∈ trackedStocks,
      ∃ v, lookup (runCycles initTable
          (rs.map (fun g u => generateRandomPrice 100 50 (g u)))) s = some v ∧
        50 ≤ v ∧ v ≤ 150) ∧
    lookup (runCycles initTable
        (rs.map (fun g u => generateRandomPrice 100 50 (g u)))) "GOOGL"
      ≠ some 2800 ∧
    lookup (runCycles initTable
        (rs.map (fun g u => generateRandomPrice 100 50 (g u)))) "AMZN"
      ≠ some 3400 := by
  have hne2 : rs.map (fun g u => generateRandomPrice 100 50 (g u)) ≠ [] := by
    simpa using hne
  have hkeys : ∀ s ∈ trackedStocks, s ∈ keys initTable := by decide
  have main : ∀ s ∈ trackedStocks,
      ∃ v, lookup (runCycles initTable
          (rs.map (fun g u => generateRandomPrice 100 50 (g u)))) s = some v ∧
        50 ≤ v ∧ v ≤ 150 := by
    intro s hs
    obtain ⟨g, hg, hl⟩ := runCycles_lookup _ initTable hne2 hkeys s hs
    obtain ⟨g0, hg0, rfl⟩ := List.mem_map.mp hg
    have hb := generateRandomPrice_bounds 100 50 (g0 s) (by norm_num)
      (hr g0 hg0 s).1 (hr g0 hg0 s).2
    exact ⟨generateRandomPrice 100 50 (g0 s), hl,
      by linarith [hb.1], by linarith [hb.2]⟩
  refine ⟨main, ?_, ?_⟩
  · obtain ⟨v, hv, h1, h2⟩ := main "GOOGL" (by decide)
    rw [hv]
    intro hcon
    have hv2 := Option.some.inj hcon
    linarith [hv2 ▸ h2]
  · obtain ⟨v, hv, h1, h2⟩ := main "AMZN" (by decide)
    rw [hv]
    intro hcon
    have hv2 := Option.some.inj hcon
    linarith [hv2 ▸ h2]

/-- Witness for C10 with a single cycle whose every draw is one half. -/
theorem c10_witness :
    (([fun _ => (1 : ℚ)/2] : List (String → ℚ)) ≠ [] ∧
      (∀ g ∈ ([fun _ => (1 : ℚ)/2] : List (String → ℚ)),
        ∀ s : String, 0 ≤ g s ∧ g s ≤ 1)) ∧
    ((∀ s ∈ trackedStocks,
      ∃ v, lookup (runCycles initTable
          (([fun _ => (1 : ℚ)/2] : List (String → ℚ)).map
            (fun g u => generateRandomPrice 100 50 (g u)))) s = some v ∧
        50 ≤ v ∧ v ≤ 150) ∧
    lookup (runCycles initTable
        (([fun _ => (1 : ℚ)/2] : List (String → ℚ)).map
          (fun g u => generateRandomPrice 100 50 (g u)))) "GOOGL"
      ≠ some 2800 ∧
    lookup (runCycles initTable
        (([fun _ => (1 : ℚ)/2] : List (String → ℚ)).map
          (fun g u => generateRandomPrice 100 50 (g u)))) "AMZN"
      ≠ some 3400) :=
  ⟨⟨by simp, by
      intro g hg s
      rw [List.mem_singleton] at hg
      subst hg
      norm_num⟩,
    c10_prices_confined [fun _ => (1 : ℚ)/2] (by simp) (by
      intro g hg s
      rw [List.mem_singleton] at hg
      subst hg
      norm_num)⟩
